import Mathlib

/-!
Shallow embedding of the occam-claw message relay: the Anthropic-format agent
tool-call loop of src/llm.py, the eval backends of src/eval/backends.py, the
conversation store of src/store.py, the Signal channel listener of
src/channels/signal.py, the email channel of src/channels/email.py, and the
per-message handler of src/occam.py. Pure data is translated directly; the
fallible backend call is an Except value; external side effects (HTTP, file
I/O, reactions) appear as explicit state or parameters.
-/

namespace OccamClaw

/-- Content block of an Anthropic-format message, as built and consumed by
src/llm.py and src/eval/backends.py: a text block, a tool-use request block
carrying its id, tool name and raw input, or a base64 image block. -/
inductive Block where
  | text (s : String)
  | toolUse (id : String) (name : String) (input : String)
  | image (mediaType : String) (data : String)
deriving DecidableEq

/-- Tool result entry fed back to the backend: the dict with type tool_result,
a tool_use_id and a content string. -/
structure AToolResult where
  toolUseId : String
  content : String
deriving DecidableEq

/-- Content of one entry of the messages list sent to the backend: plain text,
a list of content blocks, or a batch of tool results. -/
inductive MsgContent where
  | text (s : String)
  | blocks (bs : List Block)
  | results (rs : List AToolResult)

/-- Discriminator for structured block-list content. -/
def MsgContent.isBlocks : MsgContent → Bool
  | .blocks _ => true
  | _ => false

/-- One entry of a messages list or of a persisted conversation file: a role
and its content. -/
structure ChatMsg where
  role : String
  content : MsgContent

/-- Backend response in the native Anthropic format: content blocks plus a
stop_reason field. -/
structure AResponse where
  content : List Block
  stopReason : String

/-- The tool-use ids emitted in a response content, in emission order. -/
def toolUseIds (content : List Block) : List String :=
  content.filterMap fun b =>
    match b with
    | .toolUse id _ _ => some id
    | _ => none

namespace LLM

/-- Tool-result batch built by LLM.complete (src/llm.py lines 108 to 117): one
result per tool_use block of the response content, in emission order, keyed by
the id of the block, with content the string form of the executor result. -/
def toolResultsFor (executor : String → String → String) (content : List Block) :
    List AToolResult :=
  content.filterMap fun b =>
    match b with
    | .toolUse id name input => some ⟨id, executor name input⟩
    | _ => none

/-- Final text assembled by LLM.complete (src/llm.py lines 123 to 125):
concatenation of the text blocks of the last response. -/
def extractText (content : List Block) : String :=
  String.join (content.filterMap fun b =>
    match b with
    | .text s => some s
    | _ => none)

/-- The while loop of LLM.complete with explicit fuel. The source loop has no
iteration bound: it runs as long as the stop_reason is tool_use (and a tool
executor is present, which it is on the handler path). A result of none means
the fuel ran out with the loop still running. -/
def completeAux (invoke : List ChatMsg → AResponse)
    (executor : String → String → String) :
    Nat → List ChatMsg → AResponse → Option String
  | 0, _, response =>
    if response.stopReason = "tool_use" then none
    else some (extractText response.content)
  | fuel + 1, messages, response =>
    if response.stopReason = "tool_use" then
      let results := toolResultsFor executor response.content
      let messages2 := messages ++
        [⟨"assistant", .blocks response.content⟩, ⟨"user", .results results⟩]
      completeAux invoke executor fuel messages2 (invoke messages2)
    else
      some (extractText response.content)

/-- LLM.complete with a tool executor present: one initial backend call, then
the tool loop, unfolded up to the given fuel. -/
def complete (invoke : List ChatMsg → AResponse)
    (executor : String → String → String) (messages : List ChatMsg)
    (fuel : Nat) : Option String :=
  completeAux invoke executor fuel messages (invoke messages)

end LLM

namespace Eval

/-- ToolCall record of src/eval/backends.py: name, raw args and id of one
requested tool call. -/
structure ToolCall where
  name : String
  args : String
  id : String
deriving DecidableEq

/-- Turn record of src/eval/backends.py: the tool calls and free text of one
backend response. -/
structure Turn where
  tool_calls : List ToolCall
  text : String
deriving DecidableEq

/-- CompletionTrace of src/eval/backends.py: turns, final text and optional
terminal error of one run. The latency_ms field is a wall-clock measurement
and is not modelled. -/
structure CompletionTrace where
  turns : List Turn
  final_text : String
  error : Option String
deriving DecidableEq

/-- MAX_TURNS bound of the eval backends (src/eval/backends.py line 61). -/
def MAX_TURNS : Nat := 10

/-- Folding step of the response parse of BedrockBackend.run (lines 109 to
117): text blocks concatenate onto the turn text, tool_use blocks append a
ToolCall in emission order. -/
def turnStep (t : Turn) (b : Block) : Turn :=
  match b with
  | .text s => { t with text := t.text ++ s }
  | .toolUse id name input => { t with tool_calls := t.tool_calls ++ [⟨name, input, id⟩] }
  | .image _ _ => t

/-- Parse of one native-format response content into a Turn. -/
def mkTurn (content : List Block) : Turn :=
  content.foldl turnStep ⟨[], ""⟩

/-- Tool-result batch of BedrockBackend.run (lines 124 to 131): one result per
tool call of the turn, in order, keyed by the id of the call. -/
def bedrockToolResults (executor : String → String → String)
    (tcs : List ToolCall) : List AToolResult :=
  tcs.map fun tc => ⟨tc.id, executor tc.name tc.args⟩

/-- The bounded for loop of BedrockBackend.run (lines 105 to 134). The invoke
argument may raise; Except.error carries the exception message. Returns the
accumulated turns and the captured error, if any. -/
def runAux (invoke : List ChatMsg → Except String AResponse)
    (executor : String → String → String) :
    Nat → List ChatMsg → List Turn → List Turn × Option String
  | 0, _, turns => (turns, none)
  | fuel + 1, messages, turns =>
    match invoke messages with
    | .error e => (turns, some e)
    | .ok response =>
      let turns2 := turns ++ [mkTurn response.content]
      if response.stopReason ≠ "tool_use" then (turns2, none)
      else
        let results := bedrockToolResults executor (mkTurn response.content).tool_calls
        let messages2 := messages ++
          [⟨"assistant", .blocks response.content⟩, ⟨"user", .results results⟩]
        runAux invoke executor fuel messages2 turns2

/-- final_text computation (line 140): text of the last turn, or empty when no
turn completed. -/
def lastText (turns : List Turn) : String :=
  match turns.getLast? with
  | some t => t.text
  | none => ""

/-- BedrockBackend.run: build the initial user message (an optional png image
block, then the prompt text), run up to MAX_TURNS loop iterations, assemble
the trace. -/
def bedrockRun (invoke : List ChatMsg → Except String AResponse)
    (executor : String → String → String) (prompt : String)
    (imageB64 : Option String) : CompletionTrace :=
  let content :=
    (match imageB64 with
     | some data => [Block.image "image/png" data]
     | none => []) ++ [Block.text prompt]
  let messages : List ChatMsg := [⟨"user", .blocks content⟩]
  let r := runAux invoke executor MAX_TURNS messages []
  ⟨r.1, lastText r.1, r.2⟩

/-- JSON value, used to model the json.loads classification applied to a mock
tool result by ConverseBackend.run (lines 232 to 241). -/
inductive JVal where
  | obj (fields : List (String × JVal))
  | arr (elems : List JVal)
  | str (s : String)
  | num (n : Int)
  | boolean (b : Bool)
  | null

/-- Content entry of a Converse tool result: a wrapped json object or text. -/
inductive CResultBlock where
  | json (v : JVal)
  | text (s : String)

/-- Content block of a Bedrock Converse message. -/
inductive CBlock where
  | text (s : String)
  | toolUse (id : String) (name : String) (input : String)
  | image (data : String)
  | toolResult (id : String) (content : CResultBlock)

/-- One entry of a Converse messages list. -/
structure CMsg where
  role : String
  content : List CBlock

/-- Converse response: the content of output.message plus the stopReason. -/
structure CResponse where
  content : List CBlock
  stopReason : String

/-- Result shaping of ConverseBackend.run (lines 230 to 241): a parsed JSON
dict is passed as a json block, a parsed JSON array is wrapped in an object
under the results key, anything else is passed as plain text. jparse models
json.loads (none on parse failure). -/
def converseResultBlock (jparse : String → Option JVal) (resultStr : String) :
    CResultBlock :=
  match jparse resultStr with
  | some (.obj fields) => .json (.obj fields)
  | some (.arr elems) => .json (.obj [("results", JVal.arr elems)])
  | _ => .text resultStr

/-- Folding step of the Converse response parse (lines 209 to 218). -/
def cTurnStep (t : Turn) (b : CBlock) : Turn :=
  match b with
  | .text s => { t with text := t.text ++ s }
  | .toolUse id name input => { t with tool_calls := t.tool_calls ++ [⟨name, input, id⟩] }
  | _ => t

/-- Parse of one Converse response content into a Turn. -/
def mkCTurn (content : List CBlock) : Turn :=
  content.foldl cTurnStep ⟨[], ""⟩

/-- Tool-result batch of ConverseBackend.run (lines 227 to 247): one toolResult
block per tool call of the turn, in order, keyed by the id of the call. -/
def converseToolResults (jparse : String → Option JVal)
    (executor : String → String → String) (tcs : List ToolCall) : List CBlock :=
  tcs.map fun tc => .toolResult tc.id (converseResultBlock jparse (executor tc.name tc.args))

/-- The bounded for loop of ConverseBackend.run (lines 203 to 249). -/
def converseRunAux (converse : List CMsg → Except String CResponse)
    (executor : String → String → String) (jparse : String → Option JVal) :
    Nat → List CMsg → List Turn → List Turn × Option String
  | 0, _, turns => (turns, none)
  | fuel + 1, messages, turns =>
    match converse messages with
    | .error e => (turns, some e)
    | .ok response =>
      let turns2 := turns ++ [mkCTurn response.content]
      if response.stopReason ≠ "tool_use" then (turns2, none)
      else
        let results := converseToolResults jparse executor (mkCTurn response.content).tool_calls
        let messages2 := messages ++
          [⟨"assistant", response.content⟩, ⟨"user", results⟩]
        converseRunAux converse executor jparse fuel messages2 turns2

/-- ConverseBackend.run: the image block is included only when the model
supports vision, then the bounded loop runs and the trace is assembled the
same way as in BedrockBackend.run (lines 187 to 256). -/
def converseRun (converse : List CMsg → Except String CResponse)
    (executor : String → String → String) (jparse : String → Option JVal)
    (prompt : String) (imageB64 : Option String) (supportsVision : Bool) :
    CompletionTrace :=
  let userContent :=
    (match imageB64 with
     | some data => if supportsVision then [CBlock.image data] else []
     | none => []) ++ [CBlock.text prompt]
  let messages : List CMsg := [⟨"user", userContent⟩]
  let r := converseRunAux converse executor jparse MAX_TURNS messages []
  ⟨r.1, lastText r.1, r.2⟩

end Eval

/-- Store state of src/store.py: the per-thread jsonl conversation files, one
record list per thread id; a missing file is the empty list. Records are
modelled structurally (role and content) rather than as their JSON lines:
each append writes exactly one line and load parses the lines back. -/
def Store := String → List ChatMsg

/-- The empty store (no conversation file exists). -/
def Store.empty : Store := fun _ => []

/-- Trailing slice of a list, as the Python slice lines[-n:]. -/
def lastN (n : Nat) (l : List α) : List α := l.drop (l.length - n)

/-- Thread correlation map persisted in thread_map.json: a transport timestamp
maps to at most one thread id. -/
def ThreadMap := Int → Option String

/-- The empty correlation map (no file exists). -/
def ThreadMap.empty : ThreadMap := fun _ => none

namespace store

/-- store.load (src/store.py lines 8 to 13): the most recent max_messages
records of the thread file, in file order; max_messages defaults to 50 and
every caller uses the default. -/
def load (st : Store) (thread_id : String) : List ChatMsg :=
  lastN 50 (st thread_id)

/-- store.append (src/store.py lines 16 to 20): append one record line to the
thread file. -/
def append (st : Store) (thread_id : String) (role : String)
    (content : MsgContent) : Store :=
  fun t => if t = thread_id then st t ++ [⟨role, content⟩] else st t

/-- store.map_timestamp (src/store.py lines 23 to 30): register or overwrite
the thread id of one timestamp. -/
def map_timestamp (m : ThreadMap) (timestamp : Int) (thread_id : String) :
    ThreadMap :=
  fun k => if k = timestamp then some thread_id else m k

/-- store.get_thread_for_timestamp (src/store.py lines 33 to 38). -/
def get_thread_for_timestamp (m : ThreadMap) (timestamp : Int) :
    Option String :=
  m timestamp

end store

namespace signal

/-- Raw attachment descriptor of a Signal payload, with the fields read by the
listener: optional id and content type. -/
structure RawAttachment where
  id : Option String
  contentType : String
deriving DecidableEq

/-- The sentMessage part of a Signal sync envelope, with the fields read by
_extract_message. Python truthiness of the groupInfo and groupId fields is
modelled as Bool; a quote dict is an outer Option whose id field is the inner
Option. -/
structure SentMessage where
  message : String
  attachments : List RawAttachment
  groupInfo : Bool
  groupId : Bool
  destinationNumber : String
  quote : Option (Option Int)
deriving DecidableEq

/-- The envelope of one inbound Signal payload: its transport timestamp and
the sentMessage of its syncMessage, when present. -/
structure Envelope where
  timestamp : Option Int
  syncSent : Option SentMessage
deriving DecidableEq

/-- _extract_message (src/channels/signal.py lines 41 to 73): dispatchable
payloads yield (sender, text, quote timestamp, raw attachments); status
frames, empty messages without attachments, group messages and messages to
other destinations yield none. -/
def _extract_message (env : Envelope) (owner : String) :
    Option (String × String × Option Int × List RawAttachment) :=
  match env.syncSent with
  | none => none
  | some sync =>
    if sync.message = "" ∧ sync.attachments = [] then none
    else if sync.groupInfo ∨ sync.groupId then none
    else if sync.destinationNumber ≠ owner then none
    else
      let quoteTs :=
        match sync.quote with
        | some q => q
        | none => none
      some (owner, sync.message, quoteTs, sync.attachments)

/-- Thread resolution of the listener (src/channels/signal.py lines 152 to
159): a truthy quote timestamp (present and nonzero) is looked up in the
correlation map; a missing lookup result, or a falsy one, falls back to the
freshly minted uuid token. -/
def resolveThread (m : ThreadMap) (quoteTs : Option Int) (fresh : String) :
    String :=
  match quoteTs with
  | some ts =>
    if ts ≠ 0 then
      match store.get_thread_for_timestamp m ts with
      | some tid => if tid = "" then fresh else tid
      | none => fresh
    else fresh
  | none => fresh

/-- A message dispatched by the listener to the handler task (the Message
constructed at src/channels/signal.py lines 187 to 195, before the image
download, which is external I/O). -/
structure Dispatched where
  sender : String
  text : String
  thread_id : String
  quote_timestamp : Option Int
  attachments : List RawAttachment
deriving DecidableEq

/-- Shared listener state: the pending self-send set sent_timestamps, the
persistent correlation map, and the messages dispatched so far. -/
structure PollState where
  sent : Finset Int
  threadMap : ThreadMap
  dispatched : List Dispatched

/-- Processing of one inbound payload past the echo check (src/channels/
signal.py lines 136 to 195): extraction, thread resolution, registration of a
truthy inbound timestamp, dispatch of the handler task. -/
def processExtract (st : PollState) (env : Envelope) (owner fresh : String) :
    PollState :=
  match _extract_message env owner with
  | none => st
  | some (sender, text, quoteTs, atts) =>
    let tid := resolveThread st.threadMap quoteTs fresh
    let m2 :=
      match env.timestamp with
      | some ts => if ts ≠ 0 then store.map_timestamp st.threadMap ts tid else st.threadMap
      | none => st.threadMap
    { st with
      threadMap := m2,
      dispatched := st.dispatched ++ [⟨sender, text, tid, quoteTs, atts⟩] }

/-- Processing of one inbound payload (the poll loop body, src/channels/
signal.py lines 130 to 195): a timestamp found in the pending self-send set
is consumed from the set and the payload discarded without dispatch;
otherwise the payload goes through extraction and dispatch. -/
def processData (st : PollState) (env : Envelope) (owner fresh : String) :
    PollState :=
  match env.timestamp with
  | some ts =>
    if ts ∈ st.sent then { st with sent := st.sent.erase ts }
    else processExtract st env owner fresh
  | none => processExtract st env owner fresh

/-- The reply closure of the listener (src/channels/signal.py lines 170 to
179): a successful send (truthy returned timestamp) adds the timestamp to
the pending self-send set and registers it in the correlation map against the
thread of the message being replied to. -/
def listenReply (st : PollState) (tid : String) (sentTs : Option Int) :
    PollState :=
  match sentTs with
  | some ts =>
    if ts ≠ 0 then
      { st with
        sent := insert ts st.sent,
        threadMap := store.map_timestamp st.threadMap ts tid }
    else st
  | none => st

end signal

/-- Image attachment of a canonical Message (src/channels/__init__.py): raw
bytes (opaque here) and a media type. -/
structure Attachment where
  data : String
  media_type : String
deriving DecidableEq

/-- Canonical inbound Message (src/channels/__init__.py). The bound reply
capability is modelled by the replies list of the handler outcome. -/
structure Message where
  channel : String
  sender : String
  text : String
  thread_id : String
  quote_timestamp : Option Int
  attachments : List Attachment
deriving DecidableEq

namespace email

/-- One inbound email, with the fields read by the poll loop of
src/channels/email.py: sender display name and address (from parseaddr),
optional Subject header and extracted plain-text body. -/
structure Email where
  fromName : String
  fromAddr : String
  subject : Option String
  body : String
deriving DecidableEq

/-- The subject with the default applied (line 64). -/
def subjectOf (e : Email) : String := e.subject.getD "(no subject)"

/-- The text of the dispatched message (line 66). -/
def emailText (e : Email) : String :=
  "**Email from:** " ++ e.fromName ++ " <" ++ e.fromAddr ++ ">\n**Subject:** " ++
    subjectOf e ++ "\n\n" ++ e.body

/-- The thread id assigned to an inbound email (line 70). -/
def threadIdOf (e : Email) : String :=
  "email:" ++ e.fromAddr ++ ":" ++ subjectOf e

/-- The Message dispatched for one inbound email (lines 74 to 83). -/
def messageOf (e : Email) : Message :=
  ⟨"email", e.fromAddr, emailText e, threadIdOf e, none, []⟩

end email

namespace occam

/-- User content built for the model by handle_message (src/occam.py lines 99
to 113): with attachments, a block list of the base64-encoded images followed
by one text block (with a default prompt when the text is empty); otherwise
the plain text. The b64 argument models base64.b64encode(...).decode(). -/
def buildUserContent (b64 : String → String) (msg : Message) : MsgContent :=
  if msg.attachments ≠ [] then
    .blocks ((msg.attachments.map fun att => Block.image att.media_type (b64 att.data)) ++
      [Block.text (if msg.text = "" then "What is this image?" else msg.text)])
  else
    .text msg.text

/-- The in-memory message list handed to LLM.complete: the loaded history plus
the new user turn (src/occam.py lines 96 to 113). -/
def historySent (st : Store) (b64 : String → String) (msg : Message) :
    List ChatMsg :=
  store.load st msg.thread_id ++ [⟨"user", buildUserContent b64 msg⟩]

/-- Outcome of one run of the per-message handler: the store afterwards and
the replies sent through the reply capability of the message. -/
structure HandlerOutcome where
  store : Store
  replies : List String

/-- handle_message._handler (src/occam.py lines 94 to 163). The model call
either returns the response text (Except.ok, with the calendar confirmations
collected during tool execution passed alongside) or raises (Except.error).
The whole body runs under one try block whose except clause only logs, so a
raising model call skips the persistence and the reply. -/
def handler (st : Store) (msg : Message) (llmResult : Except String String)
    (confirmations : List String) : HandlerOutcome :=
  match llmResult with
  | .error _ => ⟨st, []⟩
  | .ok text =>
    let response := text ++ String.join confirmations
    let st1 := store.append st msg.thread_id "user" (.text msg.text)
    let st2 := store.append st1 msg.thread_id "assistant" (.text response)
    ⟨st2, [response]⟩

end occam

/-! Fixtures: concrete backends used to exercise the loops. -/

/-- A response that requests one tool call and asks to continue. -/
def toolUseResp : AResponse :=
  ⟨[Block.toolUse "toolu_1" "get_current_datetime" "{}"], "tool_use"⟩

/-- A model backend that answers every call with a tool-use request. -/
def alwaysToolInvoke : List ChatMsg → AResponse := fun _ => toolUseResp

/-- The same backend for the eval loop (never raises). -/
def okToolInvoke : List ChatMsg → Except String AResponse :=
  fun _ => .ok toolUseResp

/-- A tool executor returning a fixed string. -/
def constExec : String → String → String := fun _ _ => "mock"

/-- A backend whose first call succeeds with text and a tool-use request and
whose second call raises. -/
def failSecondInvoke : List ChatMsg → Except String AResponse :=
  fun ms =>
    if ms.length ≤ 1 then
      .ok ⟨[Block.text "partial", Block.toolUse "toolu_1" "get_current_datetime" "{}"], "tool_use"⟩
    else
      .error "network down"

/-- The Turn parsed from toolUseResp. -/
def toolTurn : Eval.Turn := ⟨[⟨"get_current_datetime", "{}", "toolu_1"⟩], ""⟩

/-- The tool calls contained in a response content, in emission order. -/
def turnCalls (content : List Block) : List Eval.ToolCall :=
  content.filterMap fun b =>
    match b with
    | .toolUse id name input => some ⟨name, input, id⟩
    | _ => none

/-- Replay of a sequence of append calls on one thread. -/
def appendAll (st : Store) (tid : String) (recs : List ChatMsg) : Store :=
  recs.foldl (fun s r => store.append s tid r.role r.content) st

/-- Well-formedness invariant of the thread correlation map, maintained by
every registration path of the code: a registered timestamp is truthy
(nonzero, because registration is guarded by an if on the timestamp) and a
registered thread id is a nonempty string (a minted uuid token or an
email-prefixed id). -/
def MapWF (m : ThreadMap) : Prop :=
  ∀ k v, m k = some v → k ≠ 0 ∧ v ≠ ""

/-- A concrete inbound message without attachments. -/
def plainMsg : Message := ⟨"signal", "+15550001111", "hi", "thread1", none, []⟩

/-- A concrete inbound message with one image attachment. -/
def imgMsg : Message :=
  ⟨"signal", "+15550001111", "hi", "thread1", none, [⟨"RAWBYTES", "image/png"⟩]⟩

/-- A concrete listener state with nothing pending. -/
def pollState0 : signal.PollState := ⟨∅, ThreadMap.empty, []⟩

/-- A concrete inbound envelope carrying timestamp 100 and no sync message. -/
def env100 : signal.Envelope := ⟨some 100, none⟩

/-- A correlation map built by registering timestamp 100 against thread abc. -/
def map100 : ThreadMap := store.map_timestamp ThreadMap.empty 100 "abc"

/-- A concrete dispatchable sentMessage payload. -/
def syncOk : signal.SentMessage := ⟨"hello", [], false, false, "+15550001111", none⟩

/-- A concrete dispatchable envelope. -/
def envOk : signal.Envelope := ⟨some 100, some syncOk⟩

/-! Helper lemmas about the loops. -/

/-- Against a backend that always requests a tool call, the while loop of
LLM.complete is still running after any number of iterations. -/
theorem completeAux_alwaysTool (fuel : Nat) :
    ∀ messages, LLM.completeAux alwaysToolInvoke constExec fuel messages toolUseResp = none := by
  induction fuel with
  | zero => intro messages; rfl
  | succ n ih =>
    intro messages
    rw [LLM.completeAux, if_pos (show toolUseResp.stopReason = "tool_use" from rfl)]
    exact ih _

/-- The eval loop adds at most fuel turns. -/
theorem runAux_length_le (invoke : List ChatMsg → Except String AResponse)
    (executor : String → String → String) :
    ∀ (fuel : Nat) (messages : List ChatMsg) (turns : List Eval.Turn),
      ((Eval.runAux invoke executor fuel messages turns).1).length ≤ turns.length + fuel := by
  intro fuel
  induction fuel with
  | zero => intro messages turns; simp [Eval.runAux]
  | succ n ih =>
    intro messages turns
    rw [Eval.runAux]
    cases invoke messages with
    | error e =>
      dsimp only
      exact Nat.le_add_right _ _
    | ok response =>
      dsimp only
      by_cases hs : response.stopReason = "tool_use"
      · rw [if_neg (by simp [hs])]
        refine le_trans (ih _ _) ?_
        simp only [List.length_append, List.length_singleton]
        omega
      · rw [if_pos hs]
        simp only [List.length_append, List.length_singleton]
        omega

/-- The Converse eval loop adds at most fuel turns. -/
theorem converseRunAux_length_le (conv : List Eval.CMsg → Except String Eval.CResponse)
    (executor : String → String → String) (jparse : String → Option Eval.JVal) :
    ∀ (fuel : Nat) (messages : List Eval.CMsg) (turns : List Eval.Turn),
      ((Eval.converseRunAux conv executor jparse fuel messages turns).1).length ≤ turns.length + fuel := by
  intro fuel
  induction fuel with
  | zero => intro messages turns; simp [Eval.converseRunAux]
  | succ n ih =>
    intro messages turns
    rw [Eval.converseRunAux]
    cases conv messages with
    | error e =>
      dsimp only
      exact Nat.le_add_right _ _
    | ok response =>
      dsimp only
      by_cases hs : response.stopReason = "tool_use"
      · rw [if_neg (by simp [hs])]
        refine le_trans (ih _ _) ?_
        simp only [List.length_append, List.length_singleton]
        omega
      · rw [if_pos hs]
        simp only [List.length_append, List.length_singleton]
        omega

/-- Against a backend that always requests a tool call, the eval loop runs all
its fuel, appending one (text-free) turn per iteration, and exits normally. -/
theorem runAux_alwaysTool (executor : String → String → String) :
    ∀ (fuel : Nat) (messages : List ChatMsg) (turns : List Eval.Turn),
      Eval.runAux okToolInvoke executor fuel messages turns =
        (turns ++ List.replicate fuel toolTurn, none) := by
  intro fuel
  induction fuel with
  | zero => intro messages turns; simp [Eval.runAux]
  | succ n ih =>
    intro messages turns
    rw [Eval.runAux]
    dsimp only [okToolInvoke]
    rw [if_neg (by decide)]
    rw [ih]
    rw [show Eval.mkTurn toolUseResp.content = toolTurn from rfl]
    simp [List.replicate_succ, List.append_assoc]

/-- The turn parse accumulates tool calls in emission order. -/
theorem foldl_turnStep_calls (content : List Block) :
    ∀ t : Eval.Turn,
      (content.foldl Eval.turnStep t).tool_calls = t.tool_calls ++ turnCalls content := by
  induction content with
  | nil => intro t; simp [turnCalls]
  | cons b bs ih =>
    intro t
    rw [List.foldl_cons, ih]
    cases b with
    | text s => simp [Eval.turnStep, turnCalls]
    | toolUse id name input => simp [Eval.turnStep, turnCalls]
    | image mt d => simp [Eval.turnStep, turnCalls]

/-- The tool calls of a parsed turn are exactly those of the content. -/
theorem mkTurn_calls (content : List Block) :
    (Eval.mkTurn content).tool_calls = turnCalls content := by
  rw [Eval.mkTurn, foldl_turnStep_calls]
  rfl

/-- The ids of the parsed tool calls are the emitted tool-use ids, in order. -/
theorem turnCalls_ids (content : List Block) :
    (turnCalls content).map Eval.ToolCall.id = toolUseIds content := by
  induction content with
  | nil => rfl
  | cons b bs ih =>
    cases b with
    | text s => simpa [turnCalls, toolUseIds] using ih
    | toolUse id name input => simpa [turnCalls, toolUseIds] using ih
    | image mt d => simpa [turnCalls, toolUseIds] using ih

/-- The ids carried by the tool-result batch of LLM.complete are the emitted
tool-use ids, in order. -/
theorem toolResultsFor_ids (executor : String → String → String)
    (content : List Block) :
    (LLM.toolResultsFor executor content).map AToolResult.toolUseId = toolUseIds content := by
  induction content with
  | nil => rfl
  | cons b bs ih =>
    cases b with
    | text s => simpa [LLM.toolResultsFor, toolUseIds] using ih
    | toolUse id name input => simpa [LLM.toolResultsFor, toolUseIds] using ih
    | image mt d => simpa [LLM.toolResultsFor, toolUseIds] using ih

/-- One append extends the thread file by exactly one record at the end. -/
theorem append_apply (st : Store) (tid role : String) (content : MsgContent) :
    (store.append st tid role content) tid = st tid ++ [⟨role, content⟩] := by
  show (if tid = tid then st tid ++ [⟨role, content⟩] else st tid) = st tid ++ [⟨role, content⟩]
  rw [if_pos rfl]

/-- Replaying appends yields the records in arrival order after the existing
file content. -/
theorem appendAll_apply (tid : String) :
    ∀ (recs : List ChatMsg) (st : Store),
      (appendAll st tid recs) tid = st tid ++ recs := by
  intro recs
  induction recs with
  | nil => intro st; simp [appendAll]
  | cons r rs ih =>
    intro st
    have h1 : appendAll st tid (r :: rs) =
        appendAll (store.append st tid r.role r.content) tid rs := rfl
    rw [h1, ih, append_apply]
    simp

/-- The trailing slice returns the whole list when it is short enough. -/
theorem lastN_of_le {l : List α} {n : Nat} (h : l.length ≤ n) : lastN n l = l := by
  simp [lastN, Nat.sub_eq_zero_of_le h]

/-- Registration of a truthy timestamp against a nonempty thread id preserves
the invariant. -/
theorem map_timestamp_WF {m : ThreadMap} {ts : Int} {tid : String}
    (hm : MapWF m) (hts : ts ≠ 0) (htid : tid ≠ "") :
    MapWF (store.map_timestamp m ts tid) := by
  intro k v h
  unfold store.map_timestamp at h
  split_ifs at h with hk
  · injection h with hv
    subst hv
    subst hk
    exact ⟨hts, htid⟩
  · exact hm k v h

/-- Thread resolution never produces the empty string when the minted token is
nonempty. -/
theorem resolveThread_ne_empty {m : ThreadMap} {quoteTs : Option Int}
    {fresh : String} (hf : fresh ≠ "") :
    signal.resolveThread m quoteTs fresh ≠ "" := by
  unfold signal.resolveThread
  cases quoteTs with
  | none => exact hf
  | some ts =>
    dsimp only
    split_ifs with h0
    · cases hm : store.get_thread_for_timestamp m ts with
      | none => exact hf
      | some tid =>
        dsimp only
        split_ifs with he
        · exact hf
        · exact he
    · exact hf

/-- Processing one extracted payload preserves the invariant when the minted
token is nonempty. -/
theorem processExtract_WF {st : signal.PollState} {env : signal.Envelope}
    {owner fresh : String} (hm : MapWF st.threadMap) (hf : fresh ≠ "") :
    MapWF (signal.processExtract st env owner fresh).threadMap := by
  unfold signal.processExtract
  cases h : signal._extract_message env owner with
  | none => exact hm
  | some r =>
    obtain ⟨sender, text, quoteTs, atts⟩ := r
    dsimp only
    cases hts : env.timestamp with
    | none => exact hm
    | some ts =>
      dsimp only
      split_ifs with h0
      · exact map_timestamp_WF hm h0 (resolveThread_ne_empty hf)
      · exact hm

/-- Processing one inbound payload preserves the invariant. -/
theorem processData_WF {st : signal.PollState} {env : signal.Envelope}
    {owner fresh : String} (hm : MapWF st.threadMap) (hf : fresh ≠ "") :
    MapWF (signal.processData st env owner fresh).threadMap := by
  unfold signal.processData
  cases hts : env.timestamp with
  | none => exact processExtract_WF hm hf
  | some ts =>
    dsimp only
    split_ifs with hmem
    · exact hm
    · exact processExtract_WF hm hf

/-- The reply path registers only truthy timestamps against the (nonempty)
thread id of the message replied to, preserving the invariant. -/
theorem listenReply_WF {st : signal.PollState} {tid : String}
    {sentTs : Option Int} (hm : MapWF st.threadMap) (htid : tid ≠ "") :
    MapWF (signal.listenReply st tid sentTs).threadMap := by
  unfold signal.listenReply
  cases sentTs with
  | none => exact hm
  | some ts =>
    dsimp only
    split_ifs with h0
    · exact map_timestamp_WF hm h0 htid
    · exact hm

/-- On a successful model call, the handler persists exactly the user turn and
the assistant turn, in that order, after the existing file content. -/
theorem handler_ok_store (st : Store) (msg : Message) (text : String)
    (confs : List String) :
    (occam.handler st msg (Except.ok text) confs).store msg.thread_id =
      st msg.thread_id ++ [⟨"user", MsgContent.text msg.text⟩,
        ⟨"assistant", MsgContent.text (text ++ String.join confs)⟩] := by
  show (store.append (store.append st msg.thread_id "user" (MsgContent.text msg.text))
      msg.thread_id "assistant" (MsgContent.text (text ++ String.join confs))) msg.thread_id = _
  rw [append_apply, append_apply, List.append_assoc]
  rfl

/-- Against a backend that always requests a tool call, BedrockBackend.run
stops after exactly MAX_TURNS = 10 turns, with no error and empty final
text. -/
theorem bedrockRun_alwaysTool (executor : String → String → String)
    (prompt : String) (imageB64 : Option String) :
    Eval.bedrockRun okToolInvoke executor prompt imageB64 =
      ⟨List.replicate 10 toolTurn, "", none⟩ := by
  unfold Eval.bedrockRun
  dsimp only
  rw [runAux_alwaysTool]
  rfl

/-! Claim theorems. -/

/-- C1, counterexample: the claim states that every agent tool-call loop,
including the production loop LLM.complete, terminates after at most 10
turns. Against a backend whose every response requests a tool call, the while
loop of LLM.complete is still running after 10 iterations from the initial
call (result none means the unfolding budget of 10 was exhausted with the
stop_reason still tool_use): the production loop has no 10-turn bound. -/
theorem C1_counterexample :
    LLM.complete alwaysToolInvoke constExec [⟨"user", MsgContent.text "hi"⟩] 10 = none :=
  completeAux_alwaysTool 10 _

/-- C1, amended: the eval backends bound their loops at MAX_TURNS = 10: every
BedrockBackend.run and ConverseBackend.run trace has at most 10 turns, and
against a backend that always requests a tool call BedrockBackend.run stops
after exactly 10 turns, treated as done (error none) with the partial text
(here empty); the production loop LLM.complete, by contrast, has no iteration
bound: against such a backend its while loop is still running after any
number of iterations. -/
theorem C1_amended :
    (∀ (invoke : List ChatMsg → Except String AResponse)
        (executor : String → String → String) (prompt : String)
        (imageB64 : Option String),
        ((Eval.bedrockRun invoke executor prompt imageB64).turns).length ≤ 10) ∧
    (∀ (conv : List Eval.CMsg → Except String Eval.CResponse)
        (executor : String → String → String) (jparse : String → Option Eval.JVal)
        (prompt : String) (imageB64 : Option String) (sv : Bool),
        ((Eval.converseRun conv executor jparse prompt imageB64 sv).turns).length ≤ 10) ∧
    (∀ (executor : String → String → String) (prompt : String)
        (imageB64 : Option String),
        Eval.bedrockRun okToolInvoke executor prompt imageB64 =
          ⟨List.replicate 10 toolTurn, "", none⟩) ∧
    (∀ (fuel : Nat) (messages : List ChatMsg),
        LLM.completeAux alwaysToolInvoke constExec fuel messages toolUseResp = none) := by
  refine ⟨?_, ?_, bedrockRun_alwaysTool, completeAux_alwaysTool⟩
  · intro invoke executor prompt imageB64
    have h := runAux_length_le invoke executor Eval.MAX_TURNS
      [⟨"user", MsgContent.blocks ((match imageB64 with
        | some data => [Block.image "image/png" data]
        | none => []) ++ [Block.text prompt])⟩] []
    simpa [Eval.bedrockRun, Eval.MAX_TURNS] using h
  · intro conv executor jparse prompt imageB64 sv
    have h := converseRunAux_length_le conv executor jparse Eval.MAX_TURNS
      [⟨"user", (match imageB64 with
        | some data => if sv then [Eval.CBlock.image data] else []
        | none => []) ++ [Eval.CBlock.text prompt]⟩] []
    simpa [Eval.converseRun, Eval.MAX_TURNS] using h

/-- C2, counterexample: the claim states that even when the model call raises,
the handler still appends the user and assistant turns and replies exactly
once. In the code the whole handler body runs under one try whose except
clause only logs: with a raising model call, no reply is sent (zero replies,
not one) and nothing is persisted. -/
theorem C2_counterexample :
    (occam.handler Store.empty plainMsg (Except.error "model call failed") []).replies = [] ∧
    (occam.handler Store.empty plainMsg (Except.error "model call failed") []).store "thread1" = [] ∧
    ((occam.handler Store.empty plainMsg (Except.error "model call failed") []).replies).length ≠ 1 :=
  ⟨rfl, rfl, by decide⟩

/-- C2, amended: on a successful model call the handler persists the user turn
and the assistant turn (in that order) and invokes the reply capability
exactly once, with the same text it persisted; when the model call raises,
the exception is caught by the try of the handler and only logged: nothing is
persisted and no reply is sent for that message. -/
theorem C2_amended :
    (∀ (st : Store) (msg : Message) (text : String) (confs : List String),
        (occam.handler st msg (Except.ok text) confs).replies =
          [text ++ String.join confs] ∧
        (occam.handler st msg (Except.ok text) confs).store msg.thread_id =
          st msg.thread_id ++ [⟨"user", MsgContent.text msg.text⟩,
            ⟨"assistant", MsgContent.text (text ++ String.join confs)⟩]) ∧
    (∀ (st : Store) (msg : Message) (e : String) (confs : List String),
        occam.handler st msg (Except.error e) confs = ⟨st, []⟩) := by
  refine ⟨fun st msg text confs => ⟨rfl, handler_ok_store st msg text confs⟩, ?_⟩
  intro st msg e confs
  rfl

/-- C3, counterexample: the claim states that a backend-level exception always
leaves an empty final_text. With a backend whose first response carries text
and a tool-use request and whose second call raises, the trace error is the
captured message but final_text is the text of the completed first turn,
which is not empty. -/
theorem C3_counterexample :
    (Eval.bedrockRun failSecondInvoke constExec "hello" none).error = some "network down" ∧
    (Eval.bedrockRun failSecondInvoke constExec "hello" none).final_text = "partial" ∧
    (Eval.bedrockRun failSecondInvoke constExec "hello" none).final_text ≠ "" := by
  refine ⟨by decide, by decide, by decide⟩

/-- C3, amended: a backend-level exception during a run sets the trace error
to the captured message; final_text is empty when the exception strikes
before any turn completes (in particular when the very first backend call
raises), and in general equals the text of the last completed turn, which may
be nonempty when the exception strikes later. -/
theorem C3_amended :
    (∀ (e : String) (executor : String → String → String) (prompt : String)
        (imageB64 : Option String),
        Eval.bedrockRun (fun _ => Except.error e) executor prompt imageB64 =
          ⟨[], "", some e⟩) ∧
    (∀ (e : String) (executor : String → String → String)
        (jparse : String → Option Eval.JVal) (prompt : String)
        (imageB64 : Option String) (sv : Bool),
        Eval.converseRun (fun _ => Except.error e) executor jparse prompt imageB64 sv =
          ⟨[], "", some e⟩) ∧
    (∀ (invoke : List ChatMsg → Except String AResponse)
        (executor : String → String → String) (prompt : String)
        (imageB64 : Option String),
        (Eval.bedrockRun invoke executor prompt imageB64).final_text =
          Eval.lastText (Eval.bedrockRun invoke executor prompt imageB64).turns) ∧
    (∀ (conv : List Eval.CMsg → Except String Eval.CResponse)
        (executor : String → String → String) (jparse : String → Option Eval.JVal)
        (prompt : String) (imageB64 : Option String) (sv : Bool),
        (Eval.converseRun conv executor jparse prompt imageB64 sv).final_text =
          Eval.lastText (Eval.converseRun conv executor jparse prompt imageB64 sv).turns) := by
  refine ⟨?_, ?_, ?_, ?_⟩
  · intro e executor prompt imageB64; rfl
  · intro e executor jparse prompt imageB64 sv; rfl
  · intro invoke executor prompt imageB64; rfl
  · intro conv executor jparse prompt imageB64 sv; rfl

/-- C4: after the listener reply records a (truthy) sent timestamp in the
pending self-send set, the next inbound poll observing that timestamp
consumes the set entry (the state changes only by erasing it: nothing is
dispatched, the correlation map is untouched), the entry is gone afterwards,
and a second observation of the same timestamp is no longer suppressed: it is
processed through the ordinary extraction path like a new message. -/
theorem C4_echo_suppression (st : signal.PollState) (tid owner fresh : String)
    (env : signal.Envelope) (ts : Int) (hts : ts ≠ 0)
    (henv : env.timestamp = some ts) :
    ts ∈ (signal.listenReply st tid (some ts)).sent ∧
    signal.processData (signal.listenReply st tid (some ts)) env owner fresh =
      { signal.listenReply st tid (some ts) with
        sent := (signal.listenReply st tid (some ts)).sent.erase ts } ∧
    ts ∉ (signal.processData (signal.listenReply st tid (some ts)) env owner fresh).sent ∧
    signal.processData
        (signal.processData (signal.listenReply st tid (some ts)) env owner fresh)
        env owner fresh =
      signal.processExtract
        (signal.processData (signal.listenReply st tid (some ts)) env owner fresh)
        env owner fresh := by
  have key : ∀ (s : signal.PollState), ts ∉ s.sent →
      signal.processData s env owner fresh = signal.processExtract s env owner fresh := by
    intro s hs
    unfold signal.processData
    rw [henv]
    dsimp only
    rw [if_neg hs]
  have hsent : (signal.listenReply st tid (some ts)).sent = insert ts st.sent := by
    unfold signal.listenReply
    dsimp only
    rw [if_pos hts]
  have hmem : ts ∈ (signal.listenReply st tid (some ts)).sent := by
    rw [hsent]
    exact Finset.mem_insert_self ts st.sent
  have hproc : signal.processData (signal.listenReply st tid (some ts)) env owner fresh =
      { signal.listenReply st tid (some ts) with
        sent := (signal.listenReply st tid (some ts)).sent.erase ts } := by
    unfold signal.processData
    rw [henv]
    dsimp only
    rw [if_pos hmem]
  have hgone : ts ∉ (signal.processData (signal.listenReply st tid (some ts)) env owner fresh).sent := by
    rw [hproc]
    exact Finset.not_mem_erase ts _
  exact ⟨hmem, hproc, hgone, key _ hgone⟩

/-- C4, witness: the echo-suppression theorem at a concrete state (empty
pending set, empty map), reply timestamp 100 and an inbound envelope echoing
timestamp 100. -/
theorem C4_witness :
    (100 : Int) ∈ (signal.listenReply pollState0 "t" (some 100)).sent ∧
    signal.processData (signal.listenReply pollState0 "t" (some 100)) env100 "+1" "f" =
      { signal.listenReply pollState0 "t" (some 100) with
        sent := (signal.listenReply pollState0 "t" (some 100)).sent.erase 100 } ∧
    (100 : Int) ∉ (signal.processData (signal.listenReply pollState0 "t" (some 100)) env100 "+1" "f").sent ∧
    signal.processData
        (signal.processData (signal.listenReply pollState0 "t" (some 100)) env100 "+1" "f")
        env100 "+1" "f" =
      signal.processExtract
        (signal.processData (signal.listenReply pollState0 "t" (some 100)) env100 "+1" "f")
        env100 "+1" "f" :=
  C4_echo_suppression pollState0 "t" "+1" "f" env100 100 (by decide) rfl

/-- C5: for an inbound chat message with a quote reference registered in the
(well-formed) thread correlation map, the resolved thread id is the
registered one; for a quote reference absent from the map, the freshly
minted thread id is used, and resolution is a total function (processing does
not fail). Well-formedness (nonzero keys, nonempty values) is an invariant of
every registration path, proved in map_timestamp_WF, processData_WF,
processExtract_WF and listenReply_WF. -/
theorem C5_thread_continuity (m : ThreadMap) (ts : Int) (tid fresh : String)
    (hm : MapWF m) :
    (store.get_thread_for_timestamp m ts = some tid →
       signal.resolveThread m (some ts) fresh = tid) ∧
    (store.get_thread_for_timestamp m ts = none →
       signal.resolveThread m (some ts) fresh = fresh) := by
  constructor
  · intro h
    obtain ⟨hts, htid⟩ := hm ts tid h
    unfold signal.resolveThread
    dsimp only
    rw [if_pos hts, h]
    dsimp only
    rw [if_neg htid]
  · intro h
    unfold signal.resolveThread
    dsimp only
    split_ifs with h0
    · rw [h]
    · rfl

/-- C5, witness: a map registering timestamp 100 against thread abc resolves
a quote of 100 to abc and a quote of the unregistered 200 to the minted
token. -/
theorem C5_witness :
    signal.resolveThread map100 (some 100) "f1" = "abc" ∧
    signal.resolveThread map100 (some 200) "f1" = "f1" := by
  have wf : MapWF map100 := by
    intro k v h
    unfold map100 store.map_timestamp ThreadMap.empty at h
    split_ifs at h with hk
    injection h with hv
    subst hv
    subst hk
    exact ⟨by decide, by decide⟩
  exact ⟨(C5_thread_continuity map100 100 "abc" "f1" wf).1 rfl,
         (C5_thread_continuity map100 200 "abc" "f1" wf).2 rfl⟩

/-- C6, counterexample: the claim states that with attachments present, the
user turn persisted to the thread history is a structured block list. For a
message with one image attachment, the persisted user record content is the
plain text of the message (here the string hi), which is not a block list;
only the in-memory history handed to the model carries the blocks. -/
theorem C6_counterexample :
    (occam.handler Store.empty imgMsg (Except.ok "resp") []).store "thread1" =
      [⟨"user", MsgContent.text "hi"⟩, ⟨"assistant", MsgContent.text "resp"⟩] ∧
    MsgContent.isBlocks (MsgContent.text "hi") = false ∧
    imgMsg.attachments ≠ [] :=
  ⟨rfl, rfl, by decide⟩

/-- C6, amended: when attachments are present, the user content built for the
model (the in-memory history entry) is the structured block list of the image
blocks followed by the text block, and it is the last entry of the history
handed to the model; without attachments it is the plain text; but the user
turn persisted to the thread history is always the plain message text,
attachments or not. -/
theorem C6_amended :
    (∀ (b64 : String → String) (msg : Message), msg.attachments ≠ [] →
        occam.buildUserContent b64 msg =
          MsgContent.blocks
            ((msg.attachments.map fun att => Block.image att.media_type (b64 att.data)) ++
              [Block.text (if msg.text = "" then "What is this image?" else msg.text)])) ∧
    (∀ (b64 : String → String) (msg : Message), msg.attachments = [] →
        occam.buildUserContent b64 msg = MsgContent.text msg.text) ∧
    (∀ (st : Store) (b64 : String → String) (msg : Message),
        (occam.historySent st b64 msg).getLast? =
          some ⟨"user", occam.buildUserContent b64 msg⟩) ∧
    (∀ (st : Store) (msg : Message) (text : String) (confs : List String),
        (occam.handler st msg (Except.ok text) confs).store msg.thread_id =
          st msg.thread_id ++ [⟨"user", MsgContent.text msg.text⟩,
            ⟨"assistant", MsgContent.text (text ++ String.join confs)⟩]) := by
  refine ⟨?_, ?_, ?_, handler_ok_store⟩
  · intro b64 msg h
    unfold occam.buildUserContent
    rw [if_pos h]
  · intro b64 msg h
    unfold occam.buildUserContent
    rw [if_neg (by simp [h])]
  · intro st b64 msg
    unfold occam.historySent
    exact List.getLast?_concat _

/-- C6, witness: the amended statement at a concrete message with one image
attachment and at a concrete message without attachments. -/
theorem C6_witness :
    occam.buildUserContent (fun s => s) imgMsg =
      MsgContent.blocks [Block.image "image/png" "RAWBYTES", Block.text "hi"] ∧
    occam.buildUserContent (fun s => s) plainMsg = MsgContent.text "hi" := by
  constructor
  · rw [C6_amended.1 (fun s => s) imgMsg (by decide)]
    rfl
  · exact C6_amended.2.1 (fun s => s) plainMsg rfl

/-- C7: on every loop turn, the tool-result batch fed back to the backend
carries exactly the emitted call ids, one result per emitted call, in
emission order: in LLM.complete the batch is built directly from the tool_use
blocks of the response, and in BedrockBackend.run it is built from the
parsed tool calls of the turn, whose ids are exactly the emitted tool-use ids
in order. -/
theorem C7_roundtrip :
    (∀ (executor : String → String → String) (content : List Block),
        (LLM.toolResultsFor executor content).map AToolResult.toolUseId =
          toolUseIds content) ∧
    (∀ (executor : String → String → String) (tcs : List Eval.ToolCall),
        (Eval.bedrockToolResults executor tcs).map AToolResult.toolUseId =
          tcs.map Eval.ToolCall.id) ∧
    (∀ content : List Block,
        (Eval.mkTurn content).tool_calls.map Eval.ToolCall.id = toolUseIds content) := by
  refine ⟨toolResultsFor_ids, ?_, ?_⟩
  · intro executor tcs
    simp [Eval.bedrockToolResults, List.map_map, Function.comp]
  · intro content
    rw [mkTurn_calls, turnCalls_ids]

/-- C8: replaying any sequence of appends on a thread, load returns exactly
the most recent 50 appended records (all of them when there are at most 50),
in arrival order, each as its role and content record; and one append only
extends the file at the end, never removing or rewriting earlier turns. -/
theorem C8_append_load (tid : String) (recs : List ChatMsg) :
    store.load (appendAll Store.empty tid recs) tid = lastN 50 recs ∧
    (recs.length ≤ 50 → store.load (appendAll Store.empty tid recs) tid = recs) ∧
    (∀ (st : Store) (role : String) (content : MsgContent),
        (store.append st tid role content) tid = st tid ++ [⟨role, content⟩]) := by
  have hload : store.load (appendAll Store.empty tid recs) tid = lastN 50 recs := by
    unfold store.load
    rw [appendAll_apply]
    rfl
  refine ⟨hload, ?_, ?_⟩
  · intro h
    rw [hload]
    exact lastN_of_le h
  · intro st role content
    exact append_apply st tid role content

/-- C8, witness: one appended record is returned by load unchanged. -/
theorem C8_witness :
    store.load (appendAll Store.empty "t" [⟨"user", MsgContent.text "a"⟩]) "t" =
      [⟨"user", MsgContent.text "a"⟩] :=
  (C8_append_load "t" [⟨"user", MsgContent.text "a"⟩]).2.1 (by decide)

/-- C9: a raw chat payload is dispatchable (extraction yields a message) if
and only if it is a direct sync sentMessage (not a group message: both group
markers falsy) whose destination is the owner identity, with a nonempty text
body or at least one attachment. -/
theorem C9_dispatchable (env : signal.Envelope) (owner : String) :
    (signal._extract_message env owner).isSome = true ↔
      ∃ sync, env.syncSent = some sync ∧
        (sync.message ≠ "" ∨ sync.attachments ≠ []) ∧
        sync.groupInfo = false ∧ sync.groupId = false ∧
        sync.destinationNumber = owner := by
  cases hs : env.syncSent with
  | none =>
    simp [signal._extract_message, hs]
  | some sync =>
    simp only [signal._extract_message, hs]
    constructor
    · intro hx
      by_cases h1 : sync.message = "" ∧ sync.attachments = []
      · rw [if_pos h1] at hx
        simp at hx
      · rw [if_neg h1] at hx
        by_cases h2 : sync.groupInfo = true ∨ sync.groupId = true
        · rw [if_pos h2] at hx
          simp at hx
        · rw [if_neg h2] at hx
          by_cases h3 : sync.destinationNumber ≠ owner
          · rw [if_pos h3] at hx
            simp at hx
          · obtain ⟨hg1, hg2⟩ := not_or.mp h2
            refine ⟨sync, rfl, not_and_or.mp h1, ?_, ?_, not_not.mp h3⟩
            · exact Bool.not_eq_true _ ▸ (by simpa using hg1)
            · exact Bool.not_eq_true _ ▸ (by simpa using hg2)
    · rintro ⟨sync2, hsync2, hcond, hg1, hg2, hdest⟩
      injection hsync2 with hss
      subst hss
      rw [if_neg (by rcases hcond with h | h <;> simp [h]),
        if_neg (by simp [hg1, hg2]), if_neg (by simp [hdest])]
      rfl

/-- C9, witness: a concrete direct nonempty payload addressed to the owner is
dispatchable. -/
theorem C9_witness : (signal._extract_message envOk "+15550001111").isSome = true :=
  (C9_dispatchable envOk "+15550001111").mpr
    ⟨syncOk, rfl, Or.inl (by decide), rfl, rfl, rfl⟩

/-- C10: the thread id of every inbound email is the deterministic string
email:sender:subject built by the poll loop (no random token is minted on the
email channel), so two emails sharing sender address and subject get the same
thread id regardless of their display names and bodies. -/
theorem C10_email_thread (n1 n2 addr b1 b2 : String) (subj : Option String)
    (e : email.Email) :
    email.threadIdOf ⟨n1, addr, subj, b1⟩ = email.threadIdOf ⟨n2, addr, subj, b2⟩ ∧
    email.threadIdOf e = "email:" ++ e.fromAddr ++ ":" ++ email.subjectOf e ∧
    (email.messageOf e).thread_id = email.threadIdOf e :=
  ⟨rfl, rfl, rfl⟩

end OccamClaw
